import Mathlib

/-
  Verification development for the GitHub Repository Analyzer agent
  (multi-agent orchestration layer: shared state store, tool set,
  task delegation, validation helpers).

  The Python sources are shallowly embedded: dictionaries become
  association lists with unique keys (the dict invariant), in-place
  mutation becomes explicit state passing, exceptions become Except,
  and external collaborators (GitHub client, Tavily search, LLM calls,
  HTTP fetches, uuid generation) become function parameters.
-/

namespace GithubAgent

/-- Decidable equality for `Except`, used to evaluate embedded fallible
computations at concrete inputs. -/
instance {ε α : Type} [DecidableEq ε] [DecidableEq α] : DecidableEq (Except ε α) :=
  fun x y =>
    match x, y with
    | Except.ok a, Except.ok b =>
        if h : a = b then isTrue (by rw [h])
        else isFalse (by intro hc; cases hc; exact h rfl)
    | Except.error a, Except.error b =>
        if h : a = b then isTrue (by rw [h])
        else isFalse (by intro hc; cases hc; exact h rfl)
    | Except.ok _, Except.error _ => isFalse (by intro hc; cases hc)
    | Except.error _, Except.ok _ => isFalse (by intro hc; cases hc)

/-! ## Python dict model (string-keyed, insertion-ordered association list) -/

/-- A Python dict with string keys and string values, embedded as an
association list in insertion order.  The dict invariant is that keys
are unique. -/
abbrev Dict := List (String × String)

/-- Dict key lookup, `d[k]` / `d.get(k)`: first matching key. -/
def lookup : Dict → String → Option String
  | [], _ => none
  | (k, v) :: rest, key => if k = key then some v else lookup rest key

/-- Dict item assignment `d[k] = v`: overwrite in place if the key exists,
append a new entry otherwise. -/
def setItem : Dict → String → String → Dict
  | [], key, val => [(key, val)]
  | (k, v) :: rest, key, val =>
      if k = key then (k, val) :: rest else (k, v) :: setItem rest key val

/-- Python `d.update(other)`: item assignment for every entry of `other`,
in order. -/
def dictUpdate (d other : Dict) : Dict :=
  other.foldl (fun acc kv => setItem acc kv.1 kv.2) d

/-- The key list of a dict, `d.keys()`. -/
def keys (d : Dict) : List String := d.map Prod.fst

/-! ## Shared state model (src/state.py) -/

/-- Conversation messages (langchain message objects, reduced to the
role-plus-content shape the embedded code inspects). -/
inductive Msg where
  | human (content : String)
  | ai (content : String)
  | toolMsg (content : String)
deriving DecidableEq, Repr

/-- The `GitHubAgentState` TypedDict of src/state.py: conversation
history, virtual file table, todo list and repository/issue context.
`analysis_results` is an open dict the embedded code never reads. -/
structure AgentState where
  messages : List Msg
  files : Dict
  todos : List String
  current_repo : String
  issue_url : String
  analysis_results : Dict
deriving DecidableEq, Repr

/-- The `get_initial_state` helper of src/state.py (the optional
repo and issue fields start as None, embedded as the empty string). -/
def get_initial_state : AgentState :=
  { messages := []
    files := []
    todos := []
    current_repo := ""
    issue_url := ""
    analysis_results := [] }

/-! ## File tools (src/tools/file_tools.py) -/

/-- Display helper for the `(size_kb:.1f) KB` suffix in tool messages:
`len(content) / 1024` rendered with one decimal digit.  The float
division and half-even formatting of Python are approximated by integer
rounding; no claim depends on this suffix. -/
def kbDisplay (nbytes : Nat) : String :=
  let tenths := (nbytes * 10 + 512) / 1024
  toString (tenths / 10) ++ "." ++ toString (tenths % 10)

/-- The `write_file` tool: create or overwrite an entry of the `files`
dict, returning the confirmation message and the updated dict. -/
def write_file (filename content : String) (files : Dict) : String × Dict :=
  let is_new := filename ∉ keys files
  let files' := setItem files filename content
  if is_new then
    ("✅ Created new file: " ++ filename ++ " (" ++ kbDisplay content.length ++ " KB)", files')
  else
    ("✅ Updated file: " ++ filename ++ " (" ++ kbDisplay content.length ++ " KB)", files')

/-- The `read_file` tool: return the rendered contents of a file, or a
not-found message listing the available keys. -/
def read_file (filename : String) (files : Dict) : String :=
  match lookup files filename with
  | none =>
      "❌ File \x27" ++ filename ++ "\x27 not found.\n\nAvailable files:\n" ++
        String.intercalate "\n" ((keys files).map (fun f => "  - " ++ f))
  | some content => "📄 **" ++ filename ++ "**\n\n" ++ content

/-! ## Task delegation tool (src/task_tool.py) and sub-agent registry (src/main.py) -/

/-- A sub-agent configuration entry of src/main.py (the `prompt` and
`description` fields are prompt-engineering strings the delegation logic
never branches on, so only `name` and the tool allow-list are kept). -/
structure SubAgentConfig where
  name : String
  tools : List String
deriving DecidableEq, Repr

/-- The `repo_investigator_agent` configuration of src/main.py. -/
def repo_investigator_agent : SubAgentConfig :=
  { name := "repo-investigator"
    tools := ["search_code_in_repo", "read_file_from_repo",
              "list_repository_structure", "think_tool", "read_file"] }

/-- The `error_researcher_agent` configuration of src/main.py. -/
def error_researcher_agent : SubAgentConfig :=
  { name := "error-researcher"
    tools := ["search_error_solution", "search_documentation",
              "think_tool", "read_file"] }

/-- The closed sub-agent registry `sub_agents` of src/main.py. -/
def sub_agents : List SubAgentConfig :=
  [repo_investigator_agent, error_researcher_agent]

/-- The names of `sub_agent_tools` of src/main.py, passed to
`_create_task_tool` as `all_tools`. -/
def sub_agent_tool_names : List String :=
  ["search_code_in_repo", "read_file_from_repo", "list_repository_structure",
   "search_error_solution", "search_documentation", "think_tool", "read_file"]

/-- The `sub_agent_map` comprehension of task_tool.py, as a name-keyed
association list (the registry names are distinct, so first-match lookup
coincides with Python dict lookup). -/
def subAgentMap (agents : List SubAgentConfig) : List (String × SubAgentConfig) :=
  agents.map (fun a => (a.name, a))

/-- Lookup in the sub-agent map (Python `subagent_type in sub_agent_map`
and `sub_agent_map[subagent_type]`). -/
def lookupAgent : List (String × SubAgentConfig) → String → Option SubAgentConfig
  | [], _ => none
  | (k, v) :: rest, key => if k = key then some v else lookupAgent rest key

/-- The closure parameters of `_create_task_tool`, with the external
collaborators as explicit functions: `createAgent` models
`create_react_agent` (its `Except.error` is a raised exception, caught by
the tool), `invoke` models `sub_agent.invoke` on the isolated initial
state, given the allow-listed tool names (its `Except.error` is a raised
exception; the `remaining_steps = 10` budget is internal to the runner it
models). -/
structure TaskEnv where
  all_tool_names : List String
  sub_agents : List SubAgentConfig
  createAgent : List String → Except String Unit
  invoke : List String → AgentState → Except String AgentState

/-- First AI message content scanning from the front. -/
def firstAI : List Msg → Option String
  | [] => none
  | Msg.ai c :: _ => some c
  | _ :: rest => firstAI rest

/-- The `for msg in reversed(result["messages"])` loop of task_tool.py:
content of the last AI message, if any. -/
def lastAI (ms : List Msg) : Option String := firstAI ms.reverse

/-- Fallback findings string of task_tool.py. -/
def noResponseMsg : String := "Sub-agent completed but provided no response."

/-- The isolated initial state handed to the sub-agent: one human message
holding the task description, a copy of the parent file table, empty
todos, inherited repo and issue context, empty analysis results. -/
def subAgentInit (description : String) (state : AgentState) : AgentState :=
  { messages := [Msg.human description]
    files := state.files
    todos := []
    current_repo := state.current_repo
    issue_url := state.issue_url
    analysis_results := [] }

/-- The `task` delegation tool of src/task_tool.py.  Returns the tool
result string together with the parent state as left by the call (the
Python function mutates the injected state only through
`state["files"].update(...)`). -/
def task (env : TaskEnv) (description subagent_type : String)
    (state : AgentState) : String × AgentState :=
  match lookupAgent (subAgentMap env.sub_agents) subagent_type with
  | none =>
      ("❌ Unknown sub-agent type: " ++ subagent_type ++ ". Available: " ++
        String.intercalate ", " ((subAgentMap env.sub_agents).map Prod.fst), state)
  | some agent_config =>
      let agent_tools := agent_config.tools.filter
        (fun n => env.all_tool_names.contains n)
      if agent_tools.isEmpty then
        ("❌ No tools available for " ++ subagent_type, state)
      else
        match env.createAgent agent_tools with
        | Except.error e => ("❌ Failed to create sub-agent: " ++ e, state)
        | Except.ok _ =>
          match env.invoke agent_tools (subAgentInit description state) with
          | Except.error e => ("❌ Sub-agent execution failed: " ++ e, state)
          | Except.ok result =>
            let findings := (lastAI result.messages).getD noResponseMsg
            let output :=
              "📋 Sub-Agent Report: " ++ subagent_type ++ "\n" ++
              "Task: " ++ description ++ "\n" ++
              "\n" ++ findings ++ "\n" ++
              "\n💾 Files updated: " ++ toString result.files.length ++
              " files in system"
            (output, { state with files := dictUpdate state.files result.files })

/-- The task tool as wired up in src/main.py: the registry and tool list
are fixed, the model-driven collaborators stay parameters. -/
def mainEnv (createAgent : List String → Except String Unit)
    (invoke : List String → AgentState → Except String AgentState) : TaskEnv :=
  { all_tool_names := sub_agent_tool_names
    sub_agents := sub_agents
    createAgent := createAgent
    invoke := invoke }

/-! ## Python string primitives, embedded at the character-list level -/

/-- Single-character membership, Python `c in s` for a one-character
needle. -/
def hasChar : List Char → Char → Bool
  | [], _ => false
  | x :: xs, c => x = c || hasChar xs c

/-- Number of occurrences of a character. -/
def countChar (c : Char) (l : List Char) : Nat :=
  (l.filter (fun x => x = c)).length

/-- Python `s.split(sep)` for a one-character separator: cut at every
occurrence, keeping empty pieces (so the result always has
one more piece than there are separators). -/
def splitCharList (c : Char) : List Char → List (List Char)
  | [] => [[]]
  | x :: xs =>
      if x = c then [] :: splitCharList c xs
      else
        match splitCharList c xs with
        | [] => [[x]]
        | y :: ys => (x :: y) :: ys

/-- Python `repo_name.split("/")`. -/
def pySplitSlash (s : String) : List String :=
  (splitCharList '/' s.data).map String.mk

/-- Python `c in s` on a string. -/
def pyContainsChar (s : String) (c : Char) : Bool := hasChar s.data c

/-- Substring occurrence on character lists (Python `sub in s`). -/
def listContainsSub (pat : List Char) : List Char → Bool
  | [] => pat.isEmpty
  | x :: xs => pat.isPrefixOf (x :: xs) || listContainsSub pat xs

/-- Python substring test `pat in s`. -/
def containsSub (s pat : String) : Bool := listContainsSub pat.data s.data

/-- Python `s.rstrip(c)` for a one-character strip set. -/
def pyRStrip (c : Char) (s : String) : String :=
  String.mk (s.data.reverse.dropWhile (fun x => x = c)).reverse

/-- Leading-whitespace strip. -/
def frontStrip (l : List Char) : List Char := l.dropWhile Char.isWhitespace

/-- Trailing-whitespace strip. -/
def backStrip (l : List Char) : List Char :=
  (l.reverse.dropWhile Char.isWhitespace).reverse

/-- Python `s.strip()` on character lists (the Python whitespace set
also has vertical tab and form feed; those never occur here). -/
def stripWsList (l : List Char) : List Char := backStrip (frontStrip l)

/-- Python `s.strip()`. -/
def pyStrip (s : String) : String := String.mk (stripWsList s.data)

/-- Drop leading characters belonging to a character set. -/
def dropSet (cs : List Char) (l : List Char) : List Char :=
  l.dropWhile (fun c => cs.contains c)

/-- Python `s.lstrip(chars)`: drop leading characters belonging to the
set `cs` (note Python treats the argument as a character set, not a
prefix). -/
def pyLStripSet (cs : List Char) (s : String) : String :=
  String.mk (dropSet cs s.data)

/-- The character-level core of the `mark_todo_done` marker-stripping
chain (see `cleanTodo` below). -/
def cleanList (l : List Char) : List Char :=
  stripWsList (dropSet ['✅'] (dropSet ['✓'] (dropSet ['[', 'x', ']'] (stripWsList l))))

/-! ## Validation helpers (src/errors.py) -/

/-- Message of the no-slash branch of `validate_repo_name`. -/
def repoFormatMsg (repo_name : String) : String :=
  "Invalid repository format: \x27" ++ repo_name ++ "\x27\n\n" ++
  "💡 Expected format: owner/repository\n   Examples: \n" ++
  "   - openai/openai-python\n   - facebook/react\n   - microsoft/vscode"

/-- Message of the wrong-part-count branch of `validate_repo_name`. -/
def repoSlashCountMsg (repo_name : String) : String :=
  "Invalid repository format: \x27" ++ repo_name ++ "\x27\n\n" ++
  "💡 Should contain exactly one \x27/\x27 separating owner and repository name"

/-- Message of the empty-part branch of `validate_repo_name`. -/
def repoNonEmptyMsg (repo_name : String) : String :=
  "Invalid repository format: \x27" ++ repo_name ++ "\x27\n\n" ++
  "💡 Both owner and repository name must be non-empty"

/-- The `validate_repo_name` function of src/errors.py: returns the
`(is_valid, error_message)` pair.  The final `match` arms mirror the
`len(parts) != 2` test followed by the `owner, repo = parts` unpacking. -/
def validate_repo_name (repo_name : String) : Bool × String :=
  if repo_name = "" then (false, "Repository name cannot be empty")
  else if pyContainsChar repo_name '/' = false then (false, repoFormatMsg repo_name)
  else
    match pySplitSlash repo_name with
    | [owner, repo] =>
        if owner = "" ∨ repo = "" then (false, repoNonEmptyMsg repo_name)
        else (true, "")
    | _ => (false, repoSlashCountMsg repo_name)

/-- The `validate_issue_url` function of src/errors.py. -/
def validate_issue_url (url : String) : Bool × String :=
  if url = "" then (false, "Issue URL cannot be empty")
  else if containsSub url "github.com" = false then
    (false, "Invalid GitHub URL: \x27" ++ url ++ "\x27\n\n" ++
      "💡 Must be a GitHub URL\n   Example: https://github.com/owner/repo/issues/123")
  else if containsSub url "/issues/" = false ∧ containsSub url "/pull/" = false then
    (false, "URL doesn\x27t appear to be a GitHub issue or PR: \x27" ++ url ++ "\x27\n\n" ++
      "💡 Expected formats:\n   - https://github.com/owner/repo/issues/123\n" ++
      "   - https://github.com/owner/repo/pull/456")
  else (true, "")

/-! ## Issue URL parsing (src/tools/github_tools.py, get_issue_details) -/

/-- Python list indexing `xs[i]`, including negative-index wraparound;
an out-of-range access raises `IndexError`, embedded as `Except.error`. -/
def pyIndex (xs : List String) (i : Int) : Except String String :=
  let n : Int := xs.length
  let j := if i < 0 then i + n else i
  if 0 ≤ j ∧ j < n then
    match xs.get? j.toNat with
    | some x => Except.ok x
    | none => Except.error "IndexError: list index out of range"
  else Except.error "IndexError: list index out of range"

/-- Decimal digit value of a character (code points 48 through 57). -/
def digitVal (c : Char) : Option Nat :=
  let n := c.toNat
  if 48 ≤ n ∧ n ≤ 57 then some (n - 48) else none

/-- Accumulating decimal parser over a digit run. -/
def parseDigitsAux : List Char → Nat → Option Nat
  | [], acc => some acc
  | c :: rest, acc =>
      match digitVal c with
      | some d => parseDigitsAux rest (acc * 10 + d)
      | none => none

/-- Parse a non-empty all-digit character list. -/
def parseDigits : List Char → Option Nat
  | [] => none
  | c :: rest => parseDigitsAux (c :: rest) 0

/-- Integer literal parsing: optional sign followed by digits. -/
def pyIntList (cs : List Char) : Option Int :=
  match cs with
  | '-' :: rest => (parseDigits rest).map (fun n => -(n : Int))
  | '+' :: rest => (parseDigits rest).map (fun n => (n : Int))
  | _ => (parseDigits cs).map (fun n => (n : Int))

/-- Python `int(s)`; a non-numeric literal raises `ValueError` (the extra
whitespace and underscore tolerance of `int()` is irrelevant here). -/
def pyInt (s : String) : Except String Int :=
  match pyIntList s.data with
  | some n => Except.ok n
  | none => Except.error ("ValueError: invalid literal for int() with base 10: " ++ s)

/-- The URL-parsing prelude of `get_issue_details` (github_tools.py lines
259-281): strip trailing slashes, split on `/`, check the URL mentions
`github.com` and has an `issues` segment, then extract
`parts[idx-2]`, `parts[idx-1]` and `int(parts[idx+1])` around the first
`issues` segment.  The guard failure is the "Invalid GitHub issue URL"
tool message; an IndexError or ValueError would be caught by the outer
handler of the tool, both embedded as `Except.error`. -/
def parseIssueUrl (issue_url : String) : Except String (String × String × Int) :=
  let parts := pySplitSlash (pyRStrip '/' issue_url)
  if containsSub issue_url "github.com" = false ∨ parts.contains "issues" = false then
    Except.error ("Invalid GitHub issue URL: " ++ issue_url)
  else do
    let issues_idx : Int := (parts.indexOf "issues" : Nat)
    let owner ← pyIndex parts (issues_idx - 2)
    let repo ← pyIndex parts (issues_idx - 1)
    let numStr ← pyIndex parts (issues_idx + 1)
    let n ← pyInt numStr
    Except.ok (owner, repo, n)

/-! ## GitHub code search tool (src/tools/github_tools.py, search_code_in_repo) -/

/-- A raised Python exception, as the tools distinguish them: a
`GithubException` (status plus the message extracted from `e.data`), or
any other exception rendered by `str(e)`. -/
inductive PyExc where
  | github (status : Int) (message : String)
  | other (msg : String)
deriving DecidableEq, Repr

/-- One item of a GitHub code search result page: file path, repository
full name, HTML URL, and the first text-match fragment when present. -/
structure CodeItem where
  path : String
  repository_full_name : String
  html_url : String
  fragment : Option String
deriving DecidableEq, Repr

/-- A GitHub code search result: total count and the item page. -/
structure CodeSearchResults where
  totalCount : Nat
  items : List CodeItem
deriving DecidableEq, Repr

/-- Formatting of one search hit in `search_code_in_repo`. -/
def formatCodeItem (idx : Nat) (item : CodeItem) : List String :=
  ["\n" ++ toString idx ++ ". **" ++ item.path ++ "**",
   "   Repository: " ++ item.repository_full_name,
   "   URL: " ++ item.html_url] ++
  (match item.fragment with
   | some frag => ["   Snippet: " ++ frag.take 200 ++ "..."]
   | none => [])

/-- The `search_code_in_repo` tool.  The GitHub client call is the
`searchCode` parameter; a raised exception (`Except.error`) is caught by
the `except GithubException` / `except Exception` arms and converted to a
string, so the tool itself always returns `Except.ok`. -/
def search_code_in_repo (searchCode : String → Except PyExc CodeSearchResults)
    (repo_name query : String) (max_results : Nat) : Except PyExc String :=
  match searchCode (query ++ " repo:" ++ repo_name) with
  | Except.error (PyExc.github status msg) =>
      Except.ok ("GitHub API error: " ++ toString status ++ " - " ++ msg)
  | Except.error (PyExc.other m) =>
      Except.ok ("Error searching code: " ++ m)
  | Except.ok results =>
      if results.totalCount = 0 then
        Except.ok ("No results found for query: " ++ query)
      else
        Except.ok (String.intercalate "\n"
          (("Found " ++ toString (min results.totalCount max_results) ++
            " results for \x27" ++ query ++ "\x27 in " ++ repo_name ++ ":\n")
            :: ((results.items.take max_results).enum.map
                  (fun p => formatCodeItem (p.1 + 1) p.2)).flatten))

/-! ## Web search tools (src/tools/search_tools.py) -/

/-- One Tavily search result entry (`content` and `raw_content` are
dict lookups with defaults, hence optional). -/
structure TavilyResult where
  url : String
  title : String
  content : Option String
  raw_content : Option String
deriving DecidableEq, Repr

/-- Outcome of the per-result `httpx_client.get(url)` call: a response
with status code and body text, or a raised `httpx.TimeoutException` /
`httpx.RequestError` (the two exception classes the code catches). -/
inductive FetchOutcome where
  | resp (status : Nat) (text : String)
  | fetchError
deriving DecidableEq, Repr

/-- The structured summarization output (`Summary` pydantic model). -/
structure Summary where
  filename : String
  summary : String
deriving DecidableEq, Repr

/-- External collaborators of the search tools: the Tavily client call
(whose raised exception is NOT caught inside the tool body), the
page fetch, the HTML-to-markdown conversion, the summarization LLM call
(whose failure IS caught, with a fallback), the per-result unique
suffix generator standing for `uuid.uuid4()`, and the date string. -/
structure SearchEnv where
  tavily : String → Nat → Except PyExc (List TavilyResult)
  fetch : String → FetchOutcome
  markdownify : String → String
  llm : String → Except String Summary
  uid : Nat → String
  today : String

/-- The `summarize_webpage_content` helper: a failing LLM call degrades
to a generic filename and a 1000-character preview. -/
def summarize_webpage_content (env : SearchEnv) (webpage_content : String) : Summary :=
  match env.llm webpage_content with
  | Except.ok s => s
  | Except.error _ =>
      { filename := "search_result.md"
        summary :=
          if 1000 < webpage_content.length then webpage_content.take 1000 ++ "..."
          else webpage_content }

/-- Python `os.path.splitext`: split at the last dot, unless every
character before that dot is itself a dot. -/
def splitExt (f : String) : String × String :=
  let cs := f.data
  let dotIdxs := (List.range cs.length).filter (fun i => cs.get? i = some '.')
  match dotIdxs.getLast? with
  | none => (f, "")
  | some i =>
      if (cs.take i).all (fun c => c = '.') then (f, "")
      else (String.mk (cs.take i), String.mk (cs.drop i))

/-- A processed search result, as accumulated by
`process_search_results`. -/
structure ProcessedResult where
  url : String
  title : String
  summary : String
  filename : String
  raw_content : String
deriving DecidableEq, Repr

/-- Processing of one search result: fetch the page (per-URL failures
are handled gracefully inside the loop body), summarize, then uniquify
the filename with the generated suffix. -/
def processOneResult (env : SearchEnv) (uid : String) (result : TavilyResult) :
    ProcessedResult :=
  let pair :=
    match env.fetch result.url with
    | FetchOutcome.resp status text =>
        if status = 200 then
          let raw := env.markdownify text
          (raw, summarize_webpage_content env raw)
        else
          (result.raw_content.getD "",
           { filename := "url_error.md"
             summary := result.content.getD "Error reading URL; try another search." })
    | FetchOutcome.fetchError =>
        (result.raw_content.getD "",
         { filename := "connection_error.md"
           summary := result.content.getD "Could not fetch URL. Try another search." })
  let nameExt := splitExt pair.2.filename
  { url := result.url
    title := result.title
    summary := pair.2.summary
    filename := nameExt.1 ++ "_" ++ uid ++ nameExt.2
    raw_content := pair.1 }

/-- The `process_search_results` helper over the whole result list. -/
def process_search_results (env : SearchEnv) (results : List TavilyResult) :
    List ProcessedResult :=
  results.enum.map (fun p => processOneResult env (env.uid p.1) p.2)

/-- File contents written for one processed result. -/
def searchResultFileContent (env : SearchEnv) (search_query : String)
    (r : ProcessedResult) : String :=
  "# Search Result: " ++ r.title ++ "\n\n" ++
  "**URL:** " ++ r.url ++ "\n" ++
  "**Query:** " ++ search_query ++ "\n" ++
  "**Date:** " ++ env.today ++ "\n\n" ++
  "## Summary\n" ++ r.summary ++ "\n\n" ++
  "## Raw Content\n" ++
  (if r.raw_content = "" then "No raw content available" else r.raw_content) ++ "\n"

/-- The `search_error_solution` tool.  The query is built from the error
message, the optional library name and a fixed suffix; the Tavily call
is issued with no surrounding try/except, so its raised exception
propagates out of the tool (`Except.error` here); on success the
processed results are written to the file table and a manifest string is
returned as a tool message. -/
def search_error_solution (env : SearchEnv) (error_message library_name : String)
    (max_results : Nat) (state : AgentState) : Except PyExc (String × AgentState) := do
  let query_parts := [error_message] ++
    (if library_name ≠ "" then [library_name] else []) ++ ["solution fix"]
  let search_query := String.intercalate " " query_parts
  let search_results ← env.tavily search_query max_results
  let processed := process_search_results env search_results
  let files := processed.foldl
    (fun acc r => setItem acc r.filename (searchResultFileContent env search_query r))
    state.files
  let summaries := processed.map
    (fun r => "- " ++ r.filename ++ ": " ++ r.summary.take 100 ++ "...")
  let saved_files := processed.map (fun r => r.filename)
  let summary_text :=
    "🔍 Found " ++ toString processed.length ++ " result(s) for error: \"" ++
    error_message.take 50 ++ "...\"\n\n" ++
    String.intercalate "\n" summaries ++ "\n\n" ++
    "Files: " ++ String.intercalate ", " saved_files ++ "\n" ++
    "💡 Use read_file() to access full details when needed."
  Except.ok (summary_text,
    { state with files := files
                 messages := state.messages ++ [Msg.toolMsg summary_text] })

/-! ## TODO tools (src/tools/todo_tools.py) -/

/-- The marker-stripping chain of `mark_todo_done` and `read_todos`:
`todo.strip().lstrip("[x]").lstrip("✓").lstrip("✅").strip()`
(each `lstrip` argument is a character set, so the `"[x]"` one strips
the three characters `[`, `x` and `]`). -/
def cleanTodo (t : String) : String :=
  pyStrip (pyLStripSet ['✅'] (pyLStripSet ['✓'] (pyLStripSet ['[', 'x', ']'] (pyStrip t))))

/-- Error message of `mark_todo_done` when no todos exist. -/
def noTodosMsg : String := "❌ No TODOs exist. Use write_todos() first."

/-- Error message of `mark_todo_done` for an out-of-range index. -/
def invalidIndexMsg (i : Int) (n : Nat) : String :=
  "❌ Invalid index " ++ toString i ++ ". Valid range: 1-" ++ toString n

/-- The `mark_todo_done` tool: with a 1-based in-range index it rewrites
the indexed entry to `"✅ " ++ cleaned`, otherwise it returns an error
message and leaves the list untouched.  Returns the result string
together with the todos list as left by the call. -/
def mark_todo_done (todo_index : Int) (todos : List String) : String × List String :=
  if todos.isEmpty then (noTodosMsg, todos)
  else if todo_index < 1 ∨ (todos.length : Int) < todo_index then
    (invalidIndexMsg todo_index todos.length, todos)
  else
    let idx := (todo_index - 1).toNat
    let todo := cleanTodo ((todos.get? idx).getD "")
    ("✅ Marked TODO #" ++ toString todo_index ++ " as done: " ++ todo,
     todos.set idx ("✅ " ++ todo))

/-! ## Concrete scenario inputs used to evaluate the development -/

/-- A sub-agent result state: the sub-agent overwrote `a.md` and wrote a
fresh `b.md`. -/
def resExample : AgentState :=
  { messages := [Msg.ai "Investigation complete."]
    files := [("a.md", "new"), ("b.md", "extra")]
    todos := []
    current_repo := "o/r"
    issue_url := ""
    analysis_results := [] }

/-- A parent state owning an older `a.md` and an untouched `c.md`. -/
def parentExample : AgentState :=
  { messages := [Msg.human "analyze the login bug"]
    files := [("a.md", "old"), ("c.md", "keep")]
    todos := ["fetch issue"]
    current_repo := "o/r"
    issue_url := ""
    analysis_results := [] }

/-- The task tool of src/main.py with a collaborator model whose
sub-agent run succeeds and returns `resExample`. -/
def envExample : TaskEnv :=
  mainEnv (fun _ => Except.ok ()) (fun _ _ => Except.ok resExample)

/-- A search collaborator model whose Tavily client call raises a
network error. -/
def searchEnvDown : SearchEnv :=
  { tavily := fun _ _ => Except.error (PyExc.other "ConnectionError: network unreachable")
    fetch := fun _ => FetchOutcome.fetchError
    markdownify := fun s => s
    llm := fun _ => Except.error "summarization unavailable"
    uid := fun n => "uid" ++ toString n
    today := "Sun Oct 12, 2025" }

/-! ## Library lemmas about the embedded primitives -/

theorem lookup_setItem_self (d : Dict) (k v : String) :
    lookup (setItem d k v) k = some v := by
  induction d with
  | nil => simp [setItem, lookup]
  | cons hd tl ih =>
      obtain ⟨k', v'⟩ := hd
      by_cases h : k' = k
      · subst h; simp [setItem, lookup]
      · simp [setItem, lookup, h, ih]

theorem lookup_setItem_ne (d : Dict) (k v k' : String) (h : k ≠ k') :
    lookup (setItem d k v) k' = lookup d k' := by
  induction d with
  | nil => simp [setItem, lookup, h]
  | cons hd tl ih =>
      obtain ⟨a, b⟩ := hd
      by_cases ha : a = k
      · subst ha; simp [setItem, lookup, h]
      · simp [setItem, lookup, ha, ih]

theorem lookup_setItem_isSome (d : Dict) (k v k' : String)
    (h : (lookup d k').isSome) : (lookup (setItem d k v) k').isSome := by
  by_cases hk : k = k'
  · subst hk; simp [lookup_setItem_self]
  · rwa [lookup_setItem_ne d k v k' hk]

theorem lookup_eq_none_of_not_mem_keys (d : Dict) (k : String)
    (h : k ∉ keys d) : lookup d k = none := by
  induction d with
  | nil => rfl
  | cons hd tl ih =>
      obtain ⟨a, b⟩ := hd
      simp only [keys, List.map_cons, List.mem_cons] at h
      push_neg at h
      simp [lookup, Ne.symm h.1, ih (by simpa [keys] using h.2)]

/-- Merging dicts with `update`: an entry of `other` wins over `d`, and a
key absent from `other` keeps its binding in `d`.  The uniqueness
hypothesis is the Python dict invariant on `other`. -/
theorem lookup_dictUpdate (d other : Dict) (k : String)
    (hnd : (keys other).Nodup) :
    lookup (dictUpdate d other) k = (lookup other k).or (lookup d k) := by
  induction other generalizing d with
  | nil => simp [dictUpdate, lookup]
  | cons hd tl ih =>
      obtain ⟨a, b⟩ := hd
      simp only [keys, List.map_cons, List.nodup_cons] at hnd
      have htl : (keys tl).Nodup := hnd.2
      have hstep : dictUpdate d ((a, b) :: tl) = dictUpdate (setItem d a b) tl := rfl
      rw [hstep, ih (setItem d a b) htl]
      by_cases hak : a = k
      · subst hak
        have : lookup tl a = none :=
          lookup_eq_none_of_not_mem_keys tl a (by simpa [keys] using hnd.1)
        simp [lookup, this, lookup_setItem_self]
      · simp [lookup, hak, lookup_setItem_ne d a b k hak]

/-- `update` never removes a key: any key present in `d` is still present
after merging `other` in. -/
theorem lookup_dictUpdate_isSome (d other : Dict) (k : String)
    (h : (lookup d k).isSome) : (lookup (dictUpdate d other) k).isSome := by
  induction other generalizing d with
  | nil => simpa [dictUpdate]
  | cons hd tl ih =>
      obtain ⟨a, b⟩ := hd
      have hstep : dictUpdate d ((a, b) :: tl) = dictUpdate (setItem d a b) tl := rfl
      rw [hstep]
      exact ih (setItem d a b) (lookup_setItem_isSome d a b k h)

theorem hasChar_eq_false_iff (l : List Char) (c : Char) :
    hasChar l c = false ↔ ∀ x ∈ l, x ≠ c := by
  induction l with
  | nil => simp [hasChar]
  | cons x xs ih => simp [hasChar, ih]

theorem hasChar_append_mid (a b : List Char) (c : Char) :
    hasChar (a ++ c :: b) c = true := by
  induction a with
  | nil => simp [hasChar]
  | cons x xs ih => simp [hasChar, ih]

theorem countChar_eq_zero_of_hasChar_false (l : List Char) (c : Char)
    (h : hasChar l c = false) : countChar c l = 0 := by
  rw [hasChar_eq_false_iff] at h
  simp only [countChar, List.length_eq_zero, List.filter_eq_nil_iff]
  intro x hx
  simpa using h x hx

theorem one_le_countChar_of_hasChar (l : List Char) (c : Char)
    (h : hasChar l c = true) : 1 ≤ countChar c l := by
  induction l with
  | nil => simp [hasChar] at h
  | cons x xs ih =>
      simp only [hasChar, Bool.or_eq_true, decide_eq_true_eq] at h
      simp only [countChar, List.filter_cons]
      by_cases hx : x = c
      · simp [hx]
      · rcases h with h | h
        · exact absurd h hx
        · have := ih h
          simp only [countChar] at this
          simpa [hx] using this

theorem splitCharList_ne_nil (c : Char) (l : List Char) :
    splitCharList c l ≠ [] := by
  induction l with
  | nil => simp [splitCharList]
  | cons x xs ih =>
      by_cases h : x = c
      · simp [splitCharList, h]
      · simp only [splitCharList, if_neg h]
        rcases hr : splitCharList c xs with _ | ⟨y, ys⟩
        · simp
        · simp

theorem splitCharList_of_no_sep (c : Char) (l : List Char)
    (h : ∀ x ∈ l, x ≠ c) : splitCharList c l = [l] := by
  induction l with
  | nil => rfl
  | cons x xs ih =>
      have hx : x ≠ c := h x (by simp)
      have hxs : splitCharList c xs = [xs] := ih (fun y hy => h y (by simp [hy]))
      simp [splitCharList, hx, hxs]

theorem splitCharList_append_sep (c : Char) (a b : List Char)
    (h : ∀ x ∈ a, x ≠ c) :
    splitCharList c (a ++ c :: b) = a :: splitCharList c b := by
  induction a with
  | nil => simp [splitCharList]
  | cons x xs ih =>
      have hx : x ≠ c := h x (by simp)
      have hxs := ih (fun y hy => h y (by simp [hy]))
      have step : splitCharList c ((x :: xs) ++ c :: b)
          = match splitCharList c (xs ++ c :: b) with
            | [] => [[x]]
            | y :: ys => (x :: y) :: ys := by
        simp [splitCharList, hx]
      rw [step, hxs]

theorem length_splitCharList (c : Char) (l : List Char) :
    (splitCharList c l).length = countChar c l + 1 := by
  induction l with
  | nil => simp [splitCharList, countChar]
  | cons x xs ih =>
      by_cases h : x = c
      · subst h
        simp [splitCharList, countChar, List.filter] at ih ⊢
        omega
      · simp only [splitCharList, if_neg h]
        rcases hr : splitCharList c xs with _ | ⟨y, ys⟩
        · exact absurd hr (splitCharList_ne_nil c xs)
        · rw [hr] at ih
          simp only [List.length_cons] at ih ⊢
          have hcount : countChar c (x :: xs) = countChar c xs := by
            simp [countChar, List.filter, h]
          omega

theorem listContainsSub_append_right (pat a b : List Char)
    (h : listContainsSub pat b = true) :
    listContainsSub pat (a ++ b) = true := by
  induction a with
  | nil => simpa
  | cons x xs ih => simp [listContainsSub, ih]

theorem dropWhile_head_false {p : Char → Bool} {l : List Char} {x : Char}
    {xs : List Char} (h : l.dropWhile p = x :: xs) : p x = false := by
  induction l with
  | nil => simp [List.dropWhile] at h
  | cons a l' ih =>
      by_cases hp : p a
      · rw [List.dropWhile_cons, if_pos hp] at h
        exact ih h
      · rw [List.dropWhile_cons, if_neg hp] at h
        cases h
        simpa using hp

theorem dropWhile_append_split (p : Char → Bool) (a b : List Char) :
    (a ++ b).dropWhile p =
      if a.dropWhile p = [] then b.dropWhile p else a.dropWhile p ++ b := by
  induction a with
  | nil => simp
  | cons x xs ih =>
      by_cases hp : p x
      · simpa [List.dropWhile_cons, hp] using ih
      · simp [List.dropWhile_cons, hp]

theorem backStrip_nil : backStrip [] = [] := rfl

theorem backStrip_cons (c : Char) (z : List Char) :
    backStrip (c :: z) = [] ∨ ∃ xs, backStrip (c :: z) = c :: xs := by
  unfold backStrip
  rw [List.reverse_cons, dropWhile_append_split]
  by_cases h : z.reverse.dropWhile Char.isWhitespace = []
  · rw [if_pos h]
    by_cases hc : Char.isWhitespace c
    · left; simp [List.dropWhile, hc]
    · right; exact ⟨[], by simp [List.dropWhile, hc]⟩
  · rw [if_neg h]
    right
    exact ⟨(z.reverse.dropWhile Char.isWhitespace).reverse, by simp⟩

theorem backStrip_eq_self {z : List Char} {x : Char} {xs : List Char}
    (hz : z.reverse = x :: xs) (hx : Char.isWhitespace x = false) :
    backStrip z = z := by
  unfold backStrip
  rw [hz, List.dropWhile_cons, if_neg (by simp [hx]), ← hz, List.reverse_reverse]

theorem stripWs_head_not_ws {l : List Char} {c : Char} {xs : List Char}
    (h : stripWsList l = c :: xs) : Char.isWhitespace c = false := by
  unfold stripWsList at h
  rcases hz : frontStrip l with _ | ⟨a, z'⟩
  · rw [hz] at h; simp [backStrip] at h
  · have ha : Char.isWhitespace a = false := dropWhile_head_false hz
    rw [hz] at h
    rcases backStrip_cons a z' with hb | ⟨ys, hb⟩
    · rw [hb] at h; cases h
    · rw [hb] at h
      cases h
      exact ha

theorem stripWs_last_not_ws {l : List Char} {c : Char} {xs : List Char}
    (h : (stripWsList l).reverse = c :: xs) : Char.isWhitespace c = false := by
  unfold stripWsList backStrip at h
  rw [List.reverse_reverse] at h
  exact dropWhile_head_false h

theorem str_ext {s t : String} (h : s.data = t.data) : s = t := by
  cases s; cases t; exact congrArg String.mk h

theorem mk_data (s : String) : String.mk s.data = s := rfl

theorem data_ne_nil_of_ne_empty {s : String} (h : s ≠ "") : s.data ≠ [] := by
  intro hd
  exact h (str_ext (by simpa using hd))

theorem append_ne_empty_right (s t : String) (h : t.data ≠ []) : s ++ t ≠ "" := by
  intro hc
  have hdata : (s ++ t).data = [] := by rw [hc]
  rw [String.data_append] at hdata
  exact h (List.append_eq_nil.mp hdata).2

theorem data_append_append (a b c : String) :
    (a ++ b ++ c).data = a.data ++ b.data ++ c.data := by
  rw [String.data_append, String.data_append]

theorem listIsPrefixOf_append (pat l b : List Char)
    (h : pat.isPrefixOf l = true) : pat.isPrefixOf (l ++ b) = true := by
  induction pat generalizing l with
  | nil => simp [List.isPrefixOf]
  | cons p ps ih =>
      cases l with
      | nil => simp [List.isPrefixOf] at h
      | cons x xs =>
          simp only [List.isPrefixOf, Bool.and_eq_true] at h
          simp only [List.cons_append, List.isPrefixOf, Bool.and_eq_true]
          exact ⟨h.1, ih xs h.2⟩

theorem listContainsSub_nil_pat (l : List Char) :
    listContainsSub [] l = true := by
  cases l with
  | nil => rfl
  | cons x xs => simp [listContainsSub, List.isPrefixOf]

theorem listContainsSub_append_left (pat a b : List Char)
    (h : listContainsSub pat a = true) :
    listContainsSub pat (a ++ b) = true := by
  induction a with
  | nil =>
      simp only [listContainsSub, List.isEmpty_iff] at h
      subst h
      simpa using listContainsSub_nil_pat b
  | cons x xs ih =>
      simp only [listContainsSub, Bool.or_eq_true] at h ⊢
      rcases h with h | h
      · exact Or.inl (by simpa using listIsPrefixOf_append pat (x :: xs) b h)
      · exact Or.inr (ih h)

theorem containsSub_append_right (s t pat : String)
    (h : containsSub t pat = true) : containsSub (s ++ t) pat = true := by
  unfold containsSub at h ⊢
  rw [String.data_append]
  exact listContainsSub_append_right pat.data s.data t.data h

theorem containsSub_append_left (s t pat : String)
    (h : containsSub s pat = true) : containsSub (s ++ t) pat = true := by
  unfold containsSub at h ⊢
  rw [String.data_append]
  exact listContainsSub_append_left pat.data s.data t.data h

theorem get?_set_self_of_lt (l : List String) (i : Nat) (a : String)
    (h : i < l.length) : (l.set i a).get? i = some a := by
  induction l generalizing i with
  | nil => simp at h
  | cons x xs ih =>
      cases i with
      | zero => rfl
      | succ n =>
          simp only [List.set_cons_succ, List.get?_cons_succ]
          exact ih n (by simpa using h)

theorem frontStrip_cons_not_ws {x : Char} {l : List Char}
    (h : Char.isWhitespace x = false) : frontStrip (x :: l) = x :: l := by
  unfold frontStrip
  rw [List.dropWhile_cons, if_neg (by simpa using h)]

theorem cleanList_prepend_marker (y : List Char) :
    cleanList ('✅' :: ' ' :: stripWsList y) = stripWsList y := by
  rcases hcase : stripWsList y with _ | ⟨c, cs⟩
  · decide
  · have hc : Char.isWhitespace c = false := stripWs_head_not_ws hcase
    have hrev : ∃ e es, (c :: cs).reverse = e :: es := by
      rcases hr : (c :: cs).reverse with _ | ⟨e, es⟩
      · have hcontra : c :: cs = [] := by
          have h2 := congrArg List.reverse hr
          simp at h2
        cases hcontra
      · exact ⟨e, es, rfl⟩
    obtain ⟨e, es, he⟩ := hrev
    have hwe : Char.isWhitespace e = false := by
      have hrev2 : (stripWsList y).reverse = e :: es := by rw [hcase, he]
      exact stripWs_last_not_ws hrev2
    have step1 : stripWsList ('✅' :: ' ' :: c :: cs) = '✅' :: ' ' :: c :: cs := by
      unfold stripWsList
      rw [frontStrip_cons_not_ws (by decide)]
      have hz2 : ('✅' :: ' ' :: c :: cs).reverse = e :: (es ++ [' ', '✅']) := by
        rw [List.reverse_cons, List.reverse_cons,
           show (c :: cs).reverse = e :: es from he]
        simp
      exact backStrip_eq_self hz2 hwe
    have step2 : dropSet ['[', 'x', ']'] ('✅' :: ' ' :: c :: cs) = '✅' :: ' ' :: c :: cs := by
      unfold dropSet
      rw [List.dropWhile_cons, if_neg (by decide)]
    have step3 : dropSet ['✓'] ('✅' :: ' ' :: c :: cs) = '✅' :: ' ' :: c :: cs := by
      unfold dropSet
      rw [List.dropWhile_cons, if_neg (by decide)]
    have step4 : dropSet ['✅'] ('✅' :: ' ' :: c :: cs) = ' ' :: c :: cs := by
      unfold dropSet
      rw [List.dropWhile_cons, if_pos (by decide), List.dropWhile_cons,
          if_neg (by decide)]
    have step5 : stripWsList (' ' :: c :: cs) = c :: cs := by
      unfold stripWsList
      have hfs : frontStrip (' ' :: c :: cs) = c :: cs := by
        unfold frontStrip
        rw [List.dropWhile_cons, if_pos (by decide), List.dropWhile_cons,
            if_neg (by simp [hc])]
      rw [hfs]
      exact backStrip_eq_self he hwe
    unfold cleanList
    rw [step1, step2, step3, step4, step5]

theorem cleanTodo_data (t : String) : (cleanTodo t).data = cleanList t.data := rfl

theorem cleanTodo_reapply (t : String) :
    cleanTodo ("✅ " ++ cleanTodo t) = cleanTodo t := by
  apply str_ext
  rw [cleanTodo_data, cleanTodo_data]
  have hdata : ("✅ " ++ cleanTodo t).data = '✅' :: ' ' :: cleanList t.data := by
    rw [String.data_append, cleanTodo_data]
    rfl
  rw [hdata]
  exact cleanList_prepend_marker
    (dropSet ['✅'] (dropSet ['✓'] (dropSet ['[', 'x', ']'] (stripWsList t.data))))

/-! ## Claim theorems -/

/-- C2, counterexample: after `write_file("notes.md", "x")`, the
`read_file("notes.md")` tool result is not the bare string `"x"` — the
tool decorates the contents with a filename header, so the claim that
the tool call returns exactly the written content is false. -/
theorem read_file_roundtrip_counterexample :
    read_file "notes.md" (write_file "notes.md" "x" []).2 ≠ "x" := by decide

/-- C2, amended: for every state, filename and content, `write_file`
followed by `read_file` on the same state returns the fixed header
naming the file followed by exactly the written content — in particular
the stored content round-trips unchanged as the body of the result. -/
theorem write_read_roundtrip (files : Dict) (filename content : String) :
    read_file filename (write_file filename content files).2 =
      "📄 **" ++ filename ++ "**\n\n" ++ content := by
  unfold write_file read_file
  by_cases h : filename ∈ keys files <;>
    simp [h, lookup_setItem_self]

/-- C4: delegating to a sub-agent type outside the closed registry
(`repo-investigator`, `error-researcher`) returns an error string that
enumerates the valid type names, and leaves the parent state — its
`files` map included — untouched. -/
theorem task_unknown_subagent_type
    (createAgent : List String → Except String Unit)
    (invoke : List String → AgentState → Except String AgentState)
    (description subagent_type : String) (state : AgentState)
    (h1 : subagent_type ≠ "repo-investigator")
    (h2 : subagent_type ≠ "error-researcher") :
    task (mainEnv createAgent invoke) description subagent_type state =
      ("❌ Unknown sub-agent type: " ++ subagent_type ++ ". Available: " ++
        "repo-investigator, error-researcher", state) := by
  have hlook : lookupAgent (subAgentMap (mainEnv createAgent invoke).sub_agents)
      subagent_type = none := by
    simp [mainEnv, sub_agents, subAgentMap, lookupAgent, repo_investigator_agent,
          error_researcher_agent, Ne.symm h1, Ne.symm h2]
  unfold task
  rw [hlook]
  rfl

/-- C4 witness: the unknown type `"bad-type"` at a concrete state. -/
theorem task_unknown_subagent_type_witness :
    task (mainEnv (fun _ => Except.ok ()) (fun _ _ => Except.ok resExample))
        "investigate" "bad-type" parentExample =
      ("❌ Unknown sub-agent type: " ++ "bad-type" ++ ". Available: " ++
        "repo-investigator, error-researcher", parentExample) :=
  task_unknown_subagent_type (fun _ => Except.ok ()) (fun _ _ => Except.ok resExample)
    "investigate" "bad-type" parentExample (by decide) (by decide)

/-- C8: `mark_todo_done(i)` with `i` outside `[1, len(todos)]` — the
empty-list case included — leaves the todos list exactly as it was and
returns one of the two error messages (no exception is raised: the
embedded function is total and indexes only after the bounds check). -/
theorem mark_todo_done_out_of_range (todos : List String) (i : Int)
    (h : i < 1 ∨ (todos.length : Int) < i) :
    (mark_todo_done i todos).2 = todos ∧
    ((mark_todo_done i todos).1 = noTodosMsg ∨
     (mark_todo_done i todos).1 = invalidIndexMsg i todos.length) := by
  unfold mark_todo_done
  by_cases he : todos.isEmpty
  · simp [he]
  · rw [if_neg he, if_pos h]
    exact ⟨rfl, Or.inr rfl⟩

/-- C8 witness: index 5 on a one-element todos list. -/
theorem mark_todo_done_out_of_range_witness :
    (mark_todo_done 5 ["fetch issue"]).2 = ["fetch issue"] ∧
    ((mark_todo_done 5 ["fetch issue"]).1 = noTodosMsg ∨
     (mark_todo_done 5 ["fetch issue"]).1 = invalidIndexMsg 5 1) :=
  mark_todo_done_out_of_range ["fetch issue"] 5 (by decide)

/-- C6: the issue URL `https://github.com/o/r/issues/42` parses to owner
`o`, repository `r` and issue number `42`; and every URL containing
neither `/issues/` nor `/pull/` fails `validate_issue_url` with a
non-empty (descriptive) error message. -/
theorem issue_url_parse_and_validate :
    parseIssueUrl "https://github.com/o/r/issues/42" = Except.ok ("o", "r", 42) ∧
    ∀ url : String, containsSub url "/issues/" = false →
      containsSub url "/pull/" = false →
      (validate_issue_url url).1 = false ∧ (validate_issue_url url).2 ≠ "" := by
  refine ⟨by decide, ?_⟩
  intro url h1 h2
  by_cases hu : url = ""
  · subst hu
    exact ⟨by decide, by decide⟩
  · unfold validate_issue_url
    rw [if_neg hu]
    by_cases hg : containsSub url "github.com" = false
    · rw [if_pos hg]
      exact ⟨rfl, append_ne_empty_right _ _ (by decide)⟩
    · rw [if_neg hg, if_pos ⟨h1, h2⟩]
      exact ⟨rfl, append_ne_empty_right _ _ (by decide)⟩

/-- C6 witness: a GitHub URL with neither an issues nor a pull segment. -/
theorem issue_url_validate_witness :
    (validate_issue_url "https://github.com/o/r").1 = false ∧
    (validate_issue_url "https://github.com/o/r").2 ≠ "" :=
  issue_url_parse_and_validate.2 "https://github.com/o/r" (by decide) (by decide)

/-- C5: the delegation tool never changes the `messages`, `todos`,
`current_repo`, `issue_url` or `analysis_results` fields of the parent
state, and never removes a `files` entry — whatever the registry, the
collaborators, the arguments and the parent state are. -/
theorem task_frame (env : TaskEnv) (description subagent_type : String)
    (state : AgentState) :
    (task env description subagent_type state).2.messages = state.messages ∧
    (task env description subagent_type state).2.todos = state.todos ∧
    (task env description subagent_type state).2.current_repo = state.current_repo ∧
    (task env description subagent_type state).2.issue_url = state.issue_url ∧
    (task env description subagent_type state).2.analysis_results = state.analysis_results ∧
    ∀ k, (lookup state.files k).isSome →
      (lookup (task env description subagent_type state).2.files k).isSome := by
  have hcases : (task env description subagent_type state).2 = state ∨
      ∃ res : AgentState, (task env description subagent_type state).2 =
        { state with files := dictUpdate state.files res.files } := by
    unfold task
    dsimp only
    split
    · exact Or.inl rfl
    · split
      · exact Or.inl rfl
      · split
        · exact Or.inl rfl
        · split
          · exact Or.inl rfl
          · exact Or.inr ⟨_, rfl⟩
  rcases hcases with h | ⟨res, h⟩
  · rw [h]
    exact ⟨rfl, rfl, rfl, rfl, rfl, fun k hk => hk⟩
  · rw [h]
    exact ⟨rfl, rfl, rfl, rfl, rfl,
      fun k hk => lookup_dictUpdate_isSome state.files res.files k hk⟩

/-- C5 witness: the frame condition evaluated on the concrete delegation
scenario (parent fields survive, the untouched `c.md` entry survives). -/
theorem task_frame_witness :
    (task envExample "investigate" "repo-investigator" parentExample).2.todos
        = parentExample.todos ∧
    (lookup (task envExample "investigate" "repo-investigator" parentExample).2.files
        "c.md").isSome := by
  have h := task_frame envExample "investigate" "repo-investigator" parentExample
  exact ⟨h.2.1, h.2.2.2.2.2 "c.md" (by decide)⟩

/-- C1: when a delegation to a registered sub-agent type runs to a
successful completion (`invoke` returns a result state `res`), the merge
`state["files"].update(result["files"])` makes every file of the
sub-agent table present in the parent table with the sub-agent content,
and leaves every parent file the sub-agent did not write at its previous
content.  The `Nodup` hypothesis is the key-uniqueness invariant of the
Python dict the sub-agent returns. -/
theorem task_merge (env : TaskEnv) (description subagent_type : String)
    (state : AgentState) (cfg : SubAgentConfig) (res : AgentState)
    (hfind : lookupAgent (subAgentMap env.sub_agents) subagent_type = some cfg)
    (htools : (cfg.tools.filter (fun n => env.all_tool_names.contains n)).isEmpty = false)
    (hcreate : env.createAgent
        (cfg.tools.filter (fun n => env.all_tool_names.contains n)) = Except.ok ())
    (hinvoke : env.invoke (cfg.tools.filter (fun n => env.all_tool_names.contains n))
        (subAgentInit description state) = Except.ok res)
    (hnd : (keys res.files).Nodup) :
    (∀ k v, lookup res.files k = some v →
        lookup (task env description subagent_type state).2.files k = some v) ∧
    (∀ k, lookup res.files k = none →
        lookup (task env description subagent_type state).2.files k
          = lookup state.files k) := by
  have hfiles : (task env description subagent_type state).2.files
      = dictUpdate state.files res.files := by
    unfold task
    rw [hfind]
    dsimp only
    rw [htools]
    simp only [Bool.false_eq_true, if_false]
    rw [hcreate, hinvoke]
  constructor
  · intro k v hv
    rw [hfiles, lookup_dictUpdate state.files res.files k hnd, hv]
    rfl
  · intro k hv
    rw [hfiles, lookup_dictUpdate state.files res.files k hnd, hv]
    rfl

/-- C1 witness: the spec scenario — parent `a.md = old` is overwritten
to `new`, the fresh `b.md = extra` appears, the untouched `c.md = keep`
is preserved. -/
theorem task_merge_witness :
    lookup (task envExample "investigate" "repo-investigator" parentExample).2.files
        "a.md" = some "new" ∧
    lookup (task envExample "investigate" "repo-investigator" parentExample).2.files
        "b.md" = some "extra" ∧
    lookup (task envExample "investigate" "repo-investigator" parentExample).2.files
        "c.md" = some "keep" := by
  have h := task_merge envExample "investigate" "repo-investigator" parentExample
    repo_investigator_agent resExample rfl (by decide) rfl rfl (by decide)
  exact ⟨h.1 "a.md" "new" rfl, h.1 "b.md" "extra" rfl, (h.2 "c.md" rfl).trans rfl⟩

/-- C3, counterexample: a failure of the Tavily search call inside the
`search_error_solution` tool is not caught by the tool — the raised
exception propagates out of the tool, refuting the claim that every tool
converts every execution failure into a string result. -/
theorem search_tool_exception_escapes :
    search_error_solution searchEnvDown "KeyError: access_token" "oauth2" 3
        get_initial_state
      = Except.error (PyExc.other "ConnectionError: network unreachable") := rfl

/-- C3, amended: failures during GitHub code search are caught inside
the tool and converted to a descriptive string result for every possible
client outcome; the web-search tool handles per-URL fetch failures
gracefully, but a raised exception of the search API call itself
propagates out of the tool unchanged. -/
theorem tool_error_propagation :
    (∀ (searchCode : String → Except PyExc CodeSearchResults)
        (repo_name query : String) (max_results : Nat),
        ∃ s, search_code_in_repo searchCode repo_name query max_results
          = Except.ok s) ∧
    (∀ (env : SearchEnv) (error_message library_name : String)
        (max_results : Nat) (state : AgentState) (e : PyExc),
        env.tavily = (fun _ _ => Except.error e) →
        search_error_solution env error_message library_name max_results state
          = Except.error e) := by
  constructor
  · intro sc rn q mr
    unfold search_code_in_repo
    rcases hr : sc (q ++ " repo:" ++ rn) with e | results
    · rcases e with ⟨st, m⟩ | m
      · exact ⟨_, rfl⟩
      · exact ⟨_, rfl⟩
    · dsimp only
      by_cases h0 : results.totalCount = 0
      · rw [if_pos h0]
        exact ⟨_, rfl⟩
      · rw [if_neg h0]
        exact ⟨_, rfl⟩
  · intro env em ln mr state e htav
    unfold search_error_solution
    rw [htav]
    rfl

/-- C3 witness: a rate-limited GitHub client still yields a string
result, while a network failure of the search client escapes the
error-research tool. -/
theorem tool_error_propagation_witness :
    (∃ s, search_code_in_repo (fun _ => Except.error (PyExc.github 403 "rate limit"))
        "o/r" "ChatOpenAI" 10 = Except.ok s) ∧
    search_error_solution searchEnvDown "TypeError" "" 3 parentExample
      = Except.error (PyExc.other "ConnectionError: network unreachable") :=
  ⟨tool_error_propagation.1 (fun _ => Except.error (PyExc.github 403 "rate limit"))
      "o/r" "ChatOpenAI" 10,
   tool_error_propagation.2 searchEnvDown "TypeError" "" 3 parentExample
      (PyExc.other "ConnectionError: network unreachable") rfl⟩

theorem data_slash (a b : String) :
    (a ++ "/" ++ b).data = a.data ++ '/' :: b.data := by
  rw [data_append_append, show ("/" : String).data = ['/'] from rfl,
     List.append_assoc, List.singleton_append]

theorem slash_append_ne_empty (a b : String) : a ++ "/" ++ b ≠ "" := by
  intro hc
  have hd := congrArg String.data hc
  rw [data_slash] at hd
  simp at hd

theorem pyContainsChar_slash (a b : String) :
    pyContainsChar (a ++ "/" ++ b) '/' = true := by
  unfold pyContainsChar
  rw [data_slash]
  exact hasChar_append_mid a.data b.data '/'

theorem pySplitSlash_append (a b : String)
    (ha : hasChar a.data '/' = false) (hb : hasChar b.data '/' = false) :
    pySplitSlash (a ++ "/" ++ b) = [a, b] := by
  unfold pySplitSlash
  rw [data_slash,
     splitCharList_append_sep '/' a.data b.data ((hasChar_eq_false_iff _ _).mp ha),
     splitCharList_of_no_sep '/' b.data ((hasChar_eq_false_iff _ _).mp hb)]
  simp [mk_data]

theorem validate_repo_name_split (a b : String)
    (ha : hasChar a.data '/' = false) (hb : hasChar b.data '/' = false) :
    validate_repo_name (a ++ "/" ++ b) =
      (if a = "" ∨ b = "" then (false, repoNonEmptyMsg (a ++ "/" ++ b))
       else (true, "")) := by
  unfold validate_repo_name
  rw [if_neg (slash_append_ne_empty a b)]
  rw [if_neg (show ¬ (pyContainsChar (a ++ "/" ++ b) '/' = false) by
        rw [pyContainsChar_slash]; decide)]
  rw [pySplitSlash_append a b ha hb]

/-- C9: a repository name with exactly one slash but an empty owner part
or an empty repository part (such as `/repo`, `owner/` or `/`) is
rejected by `validate_repo_name` with the message stating that both
owner and repository name must be non-empty. -/
theorem validate_repo_name_empty_part (a b : String)
    (ha : hasChar a.data '/' = false) (hb : hasChar b.data '/' = false)
    (hab : a = "" ∨ b = "") :
    validate_repo_name (a ++ "/" ++ b) =
      (false, repoNonEmptyMsg (a ++ "/" ++ b)) := by
  rw [validate_repo_name_split a b ha hb, if_pos hab]

/-- C9 witness: the `/repo` input. -/
theorem validate_repo_name_empty_part_witness :
    validate_repo_name ("" ++ "/" ++ "repo") =
      (false, repoNonEmptyMsg ("" ++ "/" ++ "repo")) :=
  validate_repo_name_empty_part "" "repo" (by decide) (by decide) (Or.inl rfl)

/-- C7, counterexample: the empty string does not contain exactly one
slash and is rejected, but its error message does not name the expected
owner/repository format — it mentions neither `owner` nor `repo`. -/
theorem validate_repo_name_counterexample :
    (validate_repo_name "").1 = false ∧
    containsSub (validate_repo_name "").2 "owner" = false ∧
    containsSub (validate_repo_name "").2 "repo" = false := by decide

/-- C7, amended: every well-formed `owner/repo` name (both parts
non-empty and slash-free) is accepted with an empty error message; every
string not containing exactly one slash is rejected, and — except for
the empty string, whose message is the plain `cannot be empty` one — the
rejection message names the expected owner/repository format. -/
theorem validate_repo_name_amended :
    (∀ owner repo : String, owner ≠ "" → repo ≠ "" →
        hasChar owner.data '/' = false → hasChar repo.data '/' = false →
        validate_repo_name (owner ++ "/" ++ repo) = (true, "")) ∧
    (∀ s : String, countChar '/' s.data ≠ 1 →
        (validate_repo_name s).1 = false ∧
        (s ≠ "" → containsSub (validate_repo_name s).2 "owner" = true ∧
          containsSub (validate_repo_name s).2 "repo" = true)) := by
  constructor
  · intro owner repo ho hr hso hsr
    rw [validate_repo_name_split owner repo hso hsr,
       if_neg (fun h => h.elim ho hr)]
  · intro s hcount
    by_cases hs : s = ""
    · subst hs
      exact ⟨by decide, fun h => absurd rfl h⟩
    · by_cases hc : pyContainsChar s '/' = false
      · have hform : validate_repo_name s = (false, repoFormatMsg s) := by
          unfold validate_repo_name
          rw [if_neg hs, if_pos hc]
        rw [hform]
        refine ⟨rfl, fun _ => ⟨?_, ?_⟩⟩
        · exact containsSub_append_left _ _ _
            (containsSub_append_right _ _ _ (by decide))
        · exact containsSub_append_left _ _ _
            (containsSub_append_right _ _ _ (by decide))
      · have hc' : pyContainsChar s '/' = true := by
          cases h : pyContainsChar s '/'
          · exact absurd h hc
          · rfl
        have hge : 1 ≤ countChar '/' s.data :=
          one_le_countChar_of_hasChar s.data '/' hc'
        have hlen : (pySplitSlash s).length = countChar '/' s.data + 1 := by
          unfold pySplitSlash
          rw [List.length_map]
          exact length_splitCharList '/' s.data
        have hmsg : validate_repo_name s = (false, repoSlashCountMsg s) := by
          unfold validate_repo_name
          rw [if_neg hs, if_neg (show ¬ (pyContainsChar s '/' = false) by
                rw [hc']; decide)]
          rcases hp : pySplitSlash s with _ | ⟨p0, _ | ⟨p1, _ | ⟨p2, t⟩⟩⟩
          case nil => rfl
          case cons.nil => rfl
          case cons.cons.nil =>
            rw [hp] at hlen
            simp only [List.length_cons, List.length_nil] at hlen
            omega
          case cons.cons.cons => rfl
        rw [hmsg]
        refine ⟨rfl, fun _ => ⟨?_, ?_⟩⟩
        · exact containsSub_append_right _ _ _ (by decide)
        · exact containsSub_append_right _ _ _ (by decide)

/-- C7 witness: `facebook/react` is accepted; `a/b/c` is rejected with a
message naming the owner/repository format. -/
theorem validate_repo_name_witness :
    validate_repo_name ("facebook" ++ "/" ++ "react") = (true, "") ∧
    ((validate_repo_name "a/b/c").1 = false ∧
      ("a/b/c" ≠ "" → containsSub (validate_repo_name "a/b/c").2 "owner" = true ∧
        containsSub (validate_repo_name "a/b/c").2 "repo" = true)) :=
  ⟨validate_repo_name_amended.1 "facebook" "react"
      (by decide) (by decide) (by decide) (by decide),
   validate_repo_name_amended.2 "a/b/c" (by decide)⟩

/-- C10: for an in-range 1-based index, `mark_todo_done` is idempotent —
the second call strips the freshly written done marker before
re-applying it, so the todos list is unchanged by the repeat call, and
the list length is preserved. -/
theorem mark_todo_done_idempotent (todos : List String) (i : Int)
    (hne : todos ≠ []) (h1 : 1 ≤ i) (h2 : i ≤ (todos.length : Int)) :
    (mark_todo_done i (mark_todo_done i todos).2).2 = (mark_todo_done i todos).2 ∧
    (mark_todo_done i todos).2.length = todos.length := by
  have hidx : (i - 1).toNat < todos.length := by omega
  have hEmpty : ¬ (todos.isEmpty = true) := by
    cases todos with
    | nil => exact absurd rfl hne
    | cons a l => simp
  have hcond : ¬ (i < 1 ∨ (todos.length : Int) < i) := by omega
  have hfirst : mark_todo_done i todos =
      ("✅ Marked TODO #" ++ toString i ++ " as done: " ++
          cleanTodo ((todos.get? (i - 1).toNat).getD ""),
       todos.set (i - 1).toNat
         ("✅ " ++ cleanTodo ((todos.get? (i - 1).toNat).getD ""))) := by
    unfold mark_todo_done
    rw [if_neg hEmpty, if_neg hcond]
  set t0 := (todos.get? (i - 1).toNat).getD "" with ht0
  set v := "✅ " ++ cleanTodo t0 with hv
  have hsnd : (mark_todo_done i todos).2 = todos.set (i - 1).toNat v := by
    rw [hfirst]
  have hlen2 : (mark_todo_done i todos).2.length = todos.length := by
    rw [hsnd, List.length_set]
  refine ⟨?_, hlen2⟩
  have hne2 : ¬ ((todos.set (i - 1).toNat v).isEmpty = true) := by
    rcases hset : todos.set (i - 1).toNat v with _ | ⟨a, l⟩
    · have hlencontra := congrArg List.length hset
      rw [List.length_set] at hlencontra
      simp only [List.length_nil] at hlencontra
      omega
    · simp
  have hcond2 : ¬ (i < 1 ∨ (((todos.set (i - 1).toNat v).length : Nat) : Int) < i) := by
    rw [List.length_set]
    omega
  have hget : (((todos.set (i - 1).toNat v).get? (i - 1).toNat).getD "") = v := by
    rw [get?_set_self_of_lt todos (i - 1).toNat v hidx]
    rfl
  have hclean : cleanTodo v = cleanTodo t0 := by
    rw [hv]
    exact cleanTodo_reapply t0
  rw [hsnd]
  unfold mark_todo_done
  rw [if_neg hne2, if_neg hcond2]
  dsimp only
  rw [hget, hclean, List.set_set, ← hv]

/-- C10 witness: marking the first todo done twice, starting from an
entry that already carries a textual pending marker. -/
theorem mark_todo_done_idempotent_witness :
    (mark_todo_done 1 (mark_todo_done 1 ["[x] fetch issue details"]).2).2
        = (mark_todo_done 1 ["[x] fetch issue details"]).2 ∧
    (mark_todo_done 1 ["[x] fetch issue details"]).2.length
        = (["[x] fetch issue details"] : List String).length :=
  mark_todo_done_idempotent ["[x] fetch issue details"] 1
    (by decide) (by decide) (by decide)

end GithubAgent
